import Mathlib

set_option maxRecDepth 10000

/-!
Shallow embedding of the game-session engine in `src/index.js` (the
full-featured of the repository's two near-duplicate servers: it is the one
with connect-time admin assignment and admin handoff on disconnect).

Modelling conventions:
* The grid is a `List (Option Cell)`.  JavaScript array writes past the end
  (`grid[i] = v` with `i >= grid.length`) extend the array and leave holes;
  a hole is `none`.  `Array.prototype.map` and `forEach` skip holes, which
  `Option.map` / skipping `none` reproduces.
* `setInterval` handles are modelled by three flags: `gameIntervalSet` (the
  `gameInterval` variable is non-null — `endGame` clears the interval but
  never nulls the variable, which matters for `if (!gameInterval)` in
  `joinGame`), `gameTimerActive` (the game interval is armed) and
  `cooldownActive` (a `countdownInterval`, a local of `endGame`, is armed —
  the `disconnect` handler cannot reach it).
* JavaScript truthiness of `adminId` (`!adminId`, `adminId ? _ : _`,
  `adminId || 'admin'`) treats both `null` and `''` as false; `truthyAdmin`
  reproduces this.  Strict comparisons (`socket.id === adminId`) are plain
  equality on `Option String`.
* `endGame` can leave `winner` as JavaScript `undefined` (when
  `players.find` misses); both `null` and `undefined` are modelled as
  `none`.  The only read that could tell them apart is
  `winner !== null` in `claimSquare`, but every state with an `undefined`
  winner also has `countdown !== null`, which triggers the same rejection.
* `generateRandomColor()` results are supplied as the event parameter
  `fresh`; the re-roll loop's exit condition (no existing player holds the
  colour) is recorded in `Ev.okb`.
* `socket.id` values are supplied by socket.io: non-empty and distinct from
  the reserved sentinel `"admin"`; `Ev.okb` records this.
* Broadcasts (`io.emit` in `broadcastGameState`) are counted in
  `broadcasts`; per-socket `socket.emit` greetings are not.
* The 1 Hz callbacks of the two intervals arrive as the events
  `Ev.gameTick` / `Ev.cooldownTick`; a tick of a timer that is not armed
  never fires, which is modelled as a no-op.
-/

structure Country where
  code : String
  name : String
deriving Repr, DecidableEq

structure Cell where
  id : Nat
  color : String
  ownerId : String
  ownerName : String
deriving Repr, DecidableEq

structure Player where
  id : String
  name : String
  color : String
  score : Nat
  country : Option Country
deriving Repr, DecidableEq

structure JoinResult where
  success : Bool
  message : Option String
deriving Repr, DecidableEq

structure GameState where
  players : List Player
  grid : List (Option Cell)
  timeLeft : Int
  gameIntervalSet : Bool
  gameTimerActive : Bool
  cooldownActive : Bool
  winner : Option Player
  countdown : Option Int
  adminId : Option String
  broadcasts : Nat
deriving Repr, DecidableEq

/-- Spec phases, derived from the state: `Cooldown` iff `countdown !== null`,
else `Active` iff a round has been started and not torn down
(`gameInterval` non-null), else `Lobby`. -/
inductive Phase where
  | Lobby
  | Active
  | Cooldown
deriving Repr, DecidableEq

def phase (s : GameState) : Phase :=
  if s.countdown ≠ none then .Cooldown
  else if s.gameIntervalSet then .Active
  else .Lobby

/-- `name.substring(0, 15)`: the first 15 code units, written on the
character list of the Lean string. -/
def strTake15 (s : String) : String := ⟨s.data.take 15⟩

/-- JavaScript truthiness of the `adminId` variable: `null` and `''` are
falsy. -/
def truthyAdmin : Option String → Option String
  | some a => if a = "" then none else some a
  | none => none

/-- The score computation shared by `calculateScores` and `endGame`:
`forEach` over the grid skips holes, `if (square.ownerId)` skips unclaimed
cells, and `scores[player.id] || 0` yields the per-owner tally. -/
def ownedCount : List (Option Cell) → String → Nat
  | [], _ => 0
  | none :: rest, pid => ownedCount rest pid
  | some c :: rest, pid =>
      (if c.ownerId ≠ "" ∧ c.ownerId = pid then 1 else 0) + ownedCount rest pid

/-- Count from the spec's words: "the count of cells whose `ownerId` equals
that player's id" (holes are not cells). -/
def specOwnedCount : List (Option Cell) → String → Nat
  | [], _ => 0
  | none :: rest, pid => specOwnedCount rest pid
  | some c :: rest, pid => (if c.ownerId = pid then 1 else 0) + specOwnedCount rest pid

/-- JavaScript array index assignment `g[i] = c`: in-range writes update,
out-of-range writes extend the array with holes in between. -/
def gridSet (g : List (Option Cell)) (i : Nat) (c : Option Cell) : List (Option Cell) :=
  if i < g.length then g.set i c
  else g ++ List.replicate (i - g.length) none ++ [c]

/-- `grid.map((square, index) => index === 0 ? adminCell : whiteCell)`,
used by `startGameTimer` (admin cell from `adminId`) and by the
last-player-disconnect reset (sentinel admin cell); holes are skipped. -/
def gridReset (aid nm : String) : Nat → List (Option Cell) → List (Option Cell)
  | _, [] => []
  | i, oc :: rest =>
      (oc.map fun _ =>
        if i = 0 then ⟨0, "#000000", aid, nm⟩ else ⟨i, "#FFFFFF", "", ""⟩) ::
      gridReset aid nm (i + 1) rest

/-- `players.find(p => p.id === pid).color = c`: mutate the first matching
entry. -/
def setColorFirst : List Player → String → String → List Player
  | [], _, _ => []
  | p :: ps, pid, c =>
      if p.id = pid then { p with color := c } :: ps else p :: setColorFirst ps pid c

/-- `broadcastGameState()`. -/
def broadcast (s : GameState) : GameState :=
  { s with broadcasts := s.broadcasts + 1 }

/-- `calculateScores()`. -/
def calculateScores (s : GameState) : GameState :=
  { s with players := s.players.map fun p => { p with score := ownedCount s.grid p.id } }

/-- The `maxScore` / `winningPlayer` scan of `endGame`. -/
def pickWinnerAux : List Player → Nat × Option Player → Nat × Option Player
  | [], acc => acc
  | p :: ps, (m, w) =>
      if m < p.score then pickWinnerAux ps (p.score, some p) else pickWinnerAux ps (m, w)

def pickWinner (ps : List Player) : Option Player :=
  (pickWinnerAux ps (0, none)).2

/-- `adminId || 'admin'` — the `ownerId` of the reset admin cell. -/
def adminOwnerId (adminId : Option String) : String :=
  match truthyAdmin adminId with
  | some a => a
  | none => "admin"

/-- `adminId ? players.find(p => p.id === adminId)?.name || 'Admin' : 'Admin'`
— the `ownerName` of the reset admin cell (note `'' || 'Admin'` is
`'Admin'`). -/
def adminOwnerName (adminId : Option String) (ps : List Player) : String :=
  match truthyAdmin adminId with
  | some a =>
      match ps.find? (fun p => p.id == a) with
      | some p => if p.name = "" then "Admin" else p.name
      | none => "Admin"
  | none => "Admin"

/-- `startGameTimer()`: reset clock, winner, countdown and scores, reset
the grid around the admin cell, broadcast, (re)arm the game interval. -/
def startGameTimer (s : GameState) : GameState :=
  let s := { s with gameTimerActive := false, timeLeft := 60,
                    winner := none, countdown := none }
  let ps := s.players.map fun p =>
    { p with score := if some p.id = s.adminId then 1 else 0 }
  let g := gridReset (adminOwnerId s.adminId) (adminOwnerName s.adminId ps) 0 s.grid
  let s := broadcast { s with players := ps, grid := g }
  { s with gameIntervalSet := true, gameTimerActive := true }

/-- The synthetic winner object `{id:'admin', name:'Admin', color:'#000000',
score:1}` (it has no `country` property). -/
def sentinelAdmin : Player :=
  ⟨"admin", "Admin", "#000000", 1, none⟩

/-- `endGame()`: stop the game interval, recompute scores, pick the winner
(strict-majority scan, admin fallback), broadcast, start the cooldown. -/
def endGame (s : GameState) : GameState :=
  let ps := s.players.map fun p => { p with score := ownedCount s.grid p.id }
  let winner := match pickWinner ps with
    | some w => some w
    | none =>
        match truthyAdmin s.adminId with
        | some a => ps.find? (fun p => p.id == a)
        | none => some sentinelAdmin
  let s := broadcast { s with players := ps, gameTimerActive := false, winner := winner }
  { s with countdown := some 10, cooldownActive := true }

/-- One callback of the game interval: `timeLeft--`, then end the round or
broadcast. -/
def gameTick (s : GameState) : GameState :=
  if s.gameTimerActive then
    let s := { s with timeLeft := s.timeLeft - 1 }
    if s.timeLeft ≤ 0 then endGame s else broadcast s
  else s

/-- One callback of the `countdownInterval`: `countdown--` (JavaScript
coerces `null` to `0`), broadcast, and on reaching `0` stop the ticker and
restart the round. -/
def cooldownTick (s : GameState) : GameState :=
  if s.cooldownActive then
    let c := (match s.countdown with | some c => c | none => 0) - 1
    let s := broadcast { s with countdown := some c }
    if c ≤ 0 then startGameTimer { s with cooldownActive := false } else s
  else s

/-- The connection handler: the first connection while no (truthy) admin
exists becomes admin.  Per-socket greetings (`socket.emit`) are not counted
as broadcasts. -/
def connectH (s : GameState) (sid : String) : GameState :=
  if s.players.isEmpty ∧ truthyAdmin s.adminId = none then
    { s with adminId := some sid }
  else s

/-- The `newPlayer` object built by the `joinGame` handler: name truncated
to 15 characters, colour forced to black for the admin, black re-rolled to
`fresh` for everyone else. -/
def mkNewPlayer (s : GameState) (sid name color fresh : String)
    (ctry : Country) : Player :=
  if some sid = s.adminId then ⟨sid, strTake15 name, "#000000", 1, some ctry⟩
  else if color = "#000000" then ⟨sid, strTake15 name, fresh, 0, some ctry⟩
  else ⟨sid, strTake15 name, color, 0, some ctry⟩

/-- The `joinGame` handler.  `fresh` stands for the colour the
`generateRandomColor()` re-roll loop would settle on. -/
def joinGame (s : GameState) (sid name color : String) (ctry : Country)
    (fresh : String) : GameState × JoinResult :=
  if s.players.any (fun p => p.name == name) then
    (s, ⟨false, some "This name is already taken. Please choose a different one."⟩)
  else
    let s := { s with players := s.players ++ [mkNewPlayer s sid name color fresh ctry] }
    let s := if s.gameIntervalSet then s else startGameTimer s
    (broadcast (calculateScores s), ⟨true, none⟩)

/-- The `claimSquare` handler. -/
def claimSquare (s : GameState) (sid : String) (squareId : Nat) : GameState :=
  if s.countdown ≠ none ∨ s.winner ≠ none then s
  else
    match s.players.find? (fun p => p.id == sid) with
    | none => s
    | some player =>
        if squareId = 0 ∧ ¬ (some sid = s.adminId) then s
        else
          let g := gridSet s.grid squareId
            (some ⟨squareId, player.color, player.id, player.name⟩)
          let s := { s with grid := g }
          broadcast (calculateScores s)

/-- The admin-handoff block of the `disconnect` handler, applied to the
state whose roster was already filtered: `adminId = players.length > 0 ?
players[0].id : null`, and when the new admin is truthy and found, recolour
them black and hand them cell 0. -/
def promoteAdmin (s1 : GameState) : GameState :=
  let newAdmin := match s1.players.head? with | some p => some p.id | none => none
  let s2 := { s1 with adminId := newAdmin }
  match truthyAdmin newAdmin with
  | some a =>
      match s1.players.find? (fun p => p.id == a) with
      | some ap =>
          { s2 with players := setColorFirst s2.players a "#000000",
                    grid := gridSet s2.grid 0 (some ⟨0, "#000000", a, ap.name⟩) }
      | none => s2
  | none => s2

/-- The `disconnect` handler.  Note that the last-player branch nulls
`gameInterval` but cannot cancel a running `countdownInterval`. -/
def disconnectH (s : GameState) (sid : String) : GameState :=
  let s1 := { s with players := s.players.filter fun p => ¬ (p.id = sid) }
  let s2 := if some sid = s.adminId then promoteAdmin s1 else s1
  if s2.players.isEmpty then
    broadcast { s2 with gameIntervalSet := false, gameTimerActive := false,
                        timeLeft := 60, winner := none, countdown := none,
                        grid := gridReset "admin" "Admin" 0 s2.grid }
  else broadcast (calculateScores s2)

/-- The initial grid: 100 white cells, then `grid[0]` is overwritten with
the sentinel admin cell. -/
def initGrid : List (Option Cell) :=
  (List.range 100).map fun i =>
    if i = 0 then some ⟨0, "#000000", "admin", "Admin"⟩
    else some ⟨i, "#FFFFFF", "", ""⟩

/-- Module-level initial state of the server. -/
def initState : GameState :=
  { players := [], grid := initGrid, timeLeft := 60,
    gameIntervalSet := false, gameTimerActive := false, cooldownActive := false,
    winner := none, countdown := none, adminId := none, broadcasts := 0 }

/-- The inbound events of the engine. -/
inductive Ev where
  | connect (sid : String)
  | join (sid name color fresh : String) (ctry : Country)
  | claim (sid : String) (squareId : Nat)
  | disconnect (sid : String)
  | gameTick
  | cooldownTick
deriving Repr, DecidableEq

def stepF (s : GameState) : Ev → GameState
  | .connect sid => connectH s sid
  | .join sid name color fresh ctry => (joinGame s sid name color ctry fresh).1
  | .claim sid i => claimSquare s sid i
  | .disconnect sid => disconnectH s sid
  | .gameTick => gameTick s
  | .cooldownTick => cooldownTick s

/-- Environment guarantees on an event: socket.io ids are non-empty and
never the reserved `"admin"`, and the colour produced by the
`generateRandomColor()` loop does not collide with a colour already in use
(the loop's exit condition). -/
def Ev.okb (s : GameState) : Ev → Bool
  | .connect sid => !(sid == "") && !(sid == "admin")
  | .join sid _ _ fresh _ =>
      !(sid == "") && !(sid == "admin") && !(s.players.any fun p => p.color == fresh)
  | .claim sid _ => !(sid == "") && !(sid == "admin")
  | .disconnect sid => !(sid == "") && !(sid == "admin")
  | .gameTick => true
  | .cooldownTick => true

/-- A join request whose name survives the 15-character truncation
unchanged. -/
def Ev.shortb : Ev → Bool
  | .join _ name _ _ _ => strTake15 name == name
  | _ => true

def run (s : GameState) (evs : List Ev) : GameState :=
  evs.foldl stepF s

/-- States reachable from the initial server state by well-formed events. -/
inductive Reach : GameState → Prop where
  | init : Reach initState
  | step {s : GameState} {e : Ev} : Reach s → Ev.okb s e = true → Reach (stepF s e)

/-- Reachability where every join request used a name of at most 15
characters. -/
inductive ReachS : GameState → Prop where
  | init : ReachS initState
  | step {s : GameState} {e : Ev} :
      ReachS s → Ev.okb s e = true → Ev.shortb e = true → ReachS (stepF s e)

def okTrace : GameState → List Ev → Bool
  | _, [] => true
  | s, e :: es => Ev.okb s e && okTrace (stepF s e) es

def okTraceS : GameState → List Ev → Bool
  | _, [] => true
  | s, e :: es => (Ev.okb s e && Ev.shortb e) && okTraceS (stepF s e) es

theorem reach_run (s : GameState) (evs : List Ev) (hs : Reach s)
    (h : okTrace s evs = true) : Reach (run s evs) := by
  induction evs generalizing s with
  | nil => exact hs
  | cons e es ih =>
      rw [okTrace, Bool.and_eq_true] at h
      exact ih (stepF s e) (Reach.step hs h.1) h.2

theorem reachS_run (s : GameState) (evs : List Ev) (hs : ReachS s)
    (h : okTraceS s evs = true) : ReachS (run s evs) := by
  induction evs generalizing s with
  | nil => exact hs
  | cons e es ih =>
      rw [okTraceS, Bool.and_eq_true, Bool.and_eq_true] at h
      exact ih (stepF s e) (ReachS.step hs h.1.1 h.1.2) h.2

theorem reachS_reach {s : GameState} (h : ReachS s) : Reach s := by
  induction h with
  | init => exact Reach.init
  | step _ hok _ ih => exact Reach.step ih hok
/-! ### Helper lemmas about the grid operations -/

def gridOk (g : List (Option Cell)) : Prop :=
  100 ≤ g.length ∧ ∀ i, i < 100 → ∃ c, g.get? i = some (some c)

theorem length_gridReset (a n : String) (j : Nat) (g : List (Option Cell)) :
    (gridReset a n j g).length = g.length := by
  induction g generalizing j with
  | nil => rfl
  | cons oc rest ih => simp [gridReset, ih]

theorem gridReset_get? (a n : String) (g : List (Option Cell)) (j i : Nat) :
    (gridReset a n j g).get? i =
      (g.get? i).map (Option.map fun _ =>
        if j + i = 0 then (⟨0, "#000000", a, n⟩ : Cell)
        else ⟨j + i, "#FFFFFF", "", ""⟩) := by
  induction g generalizing j i with
  | nil => simp [gridReset]
  | cons oc rest ih =>
      cases i with
      | zero => simp [gridReset]
      | succ i =>
          simp only [gridReset, List.get?_cons_succ, ih (j + 1) i,
            Nat.succ_add, Nat.add_succ]

theorem ownedCount_gridReset_pos (a n pid : String) (g : List (Option Cell)) (j : Nat)
    (hj : j ≠ 0) : ownedCount (gridReset a n j g) pid = 0 := by
  induction g generalizing j with
  | nil => rfl
  | cons oc rest ih =>
      cases oc with
      | none => simpa [gridReset, ownedCount] using ih (j + 1) (Nat.succ_ne_zero j)
      | some c =>
          simp [gridReset, ownedCount, hj, ih (j + 1) (Nat.succ_ne_zero j)]

theorem ownedCount_gridReset_zero (a n pid : String) (c : Cell)
    (rest : List (Option Cell)) (ha : a ≠ "") :
    ownedCount (gridReset a n 0 (some c :: rest)) pid = if a = pid then 1 else 0 := by
  simp [gridReset, ownedCount, ownedCount_gridReset_pos a n pid rest 1 one_ne_zero, ha]

theorem gridOk_gridReset (a n : String) (g : List (Option Cell)) (h : gridOk g) :
    gridOk (gridReset a n 0 g) := by
  refine ⟨by rw [length_gridReset]; exact h.1, fun i hi => ?_⟩
  obtain ⟨c, hc⟩ := h.2 i hi
  rw [gridReset_get? a n g 0 i, hc]
  exact ⟨_, rfl⟩

theorem gridSet_length (g : List (Option Cell)) (i : Nat) (c : Option Cell) :
    g.length ≤ (gridSet g i c).length := by
  unfold gridSet
  split
  · simp
  · simp

theorem gridSet_get?_lt (g : List (Option Cell)) (i k : Nat) (c : Option Cell)
    (hk : k < g.length) (hne : i ≠ k) : (gridSet g i c).get? k = g.get? k := by
  unfold gridSet
  split
  · exact List.get?_set_ne c g hne
  · rw [List.append_assoc, List.get?_append hk]

theorem gridSet_get?_self (g : List (Option Cell)) (i : Nat) (c : Option Cell)
    (hi : i < g.length) : (gridSet g i c).get? i = some c := by
  unfold gridSet
  rw [if_pos hi, List.get?_set_eq_of_lt c hi]

theorem gridOk_gridSet (g : List (Option Cell)) (i : Nat) (c : Cell) (h : gridOk g) :
    gridOk (gridSet g i (some c)) := by
  refine ⟨le_trans h.1 (gridSet_length g i (some c)), fun k hk => ?_⟩
  by_cases hik : i = k
  · subst hik
    exact ⟨c, gridSet_get?_self g i (some c) (lt_of_lt_of_le hk h.1)⟩
  · rw [gridSet_get?_lt g i k (some c) (lt_of_lt_of_le hk h.1) hik]
    exact h.2 k hk

theorem ownedCount_eq_spec (g : List (Option Cell)) (pid : String) (h : pid ≠ "") :
    ownedCount g pid = specOwnedCount g pid := by
  induction g with
  | nil => rfl
  | cons oc rest ih =>
      cases oc with
      | none => simpa [ownedCount, specOwnedCount] using ih
      | some c =>
          by_cases hc : c.ownerId = pid
          · simp [ownedCount, specOwnedCount, hc, h, ih]
          · simp [ownedCount, specOwnedCount, hc, ih]

/-! ### Helper lemmas about the player-list operations -/

def idsOk (ps : List Player) : Prop :=
  ∀ p ∈ ps, p.id ≠ "" ∧ p.id ≠ "admin"

theorem idsOk_map_score (ps : List Player) (f : Player → Nat) (h : idsOk ps) :
    idsOk (ps.map fun p => { p with score := f p }) := by
  intro p hp
  obtain ⟨q, hq, rfl⟩ := List.mem_map.mp hp
  exact h q hq

theorem idsOk_filter (ps : List Player) (f : Player → Bool) (h : idsOk ps) :
    idsOk (ps.filter f) :=
  fun p hp => h p (List.mem_of_mem_filter hp)

theorem setColorFirst_map_id (ps : List Player) (a c : String) :
    (setColorFirst ps a c).map (fun p => p.id) = ps.map fun p => p.id := by
  induction ps with
  | nil => rfl
  | cons p rest ih =>
      unfold setColorFirst
      split
      · simp
      · simp [ih]

theorem setColorFirst_map_name (ps : List Player) (a c : String) :
    (setColorFirst ps a c).map (fun p => p.name) = ps.map fun p => p.name := by
  induction ps with
  | nil => rfl
  | cons p rest ih =>
      unfold setColorFirst
      split
      · simp
      · simp [ih]

theorem idsOk_setColorFirst (ps : List Player) (a c : String) (h : idsOk ps) :
    idsOk (setColorFirst ps a c) := by
  induction ps with
  | nil => intro p hp; cases hp
  | cons p rest ih =>
      unfold setColorFirst
      split
      · intro q hq
        rcases List.mem_cons.mp hq with hq | hq
        · subst hq; exact h p (List.mem_cons_self p rest)
        · exact h q (List.mem_cons_of_mem p hq)
      · intro q hq
        rcases List.mem_cons.mp hq with hq | hq
        · rw [hq]; exact h p (List.mem_cons_self p rest)
        · exact ih (fun r hr => h r (List.mem_cons_of_mem p hr)) q hq

theorem names_map_score (ps : List Player) (f : Player → Nat) :
    (ps.map fun p => { p with score := f p }).map (fun p => p.name) =
      ps.map fun p => p.name := by
  rw [List.map_map]
  exact List.map_congr_left fun p _ => rfl

/-! ### The inductive invariant -/

structure GameInv (s : GameState) : Prop where
  timer : s.players ≠ [] → s.gameIntervalSet = true
  ids : idsOk s.players
  admin : ∀ a, s.adminId = some a → a ≠ "" ∧ a ≠ "admin"
  scores : ∀ p ∈ s.players, p.score = ownedCount s.grid p.id
  gok : gridOk s.grid

theorem truthyAdmin_eq_some (o : Option String) (a : String)
    (h : truthyAdmin o = some a) : o = some a ∧ a ≠ "" := by
  cases o with
  | none => cases h
  | some b =>
      by_cases hb : b = ""
      · simp [truthyAdmin, hb] at h
      · simp [truthyAdmin, hb] at h
        subst h
        exact ⟨rfl, hb⟩

theorem truthyAdmin_eq_none (o : Option String)
    (hwf : ∀ a, o = some a → a ≠ "") (h : truthyAdmin o = none) : o = none := by
  cases o with
  | none => rfl
  | some b =>
      by_cases hb : b = ""
      · exact absurd hb (hwf b rfl)
      · simp [truthyAdmin, hb] at h

theorem startGameTimer_players (s : GameState) :
    (startGameTimer s).players =
      s.players.map fun p => { p with score := if some p.id = s.adminId then 1 else 0 } := rfl

theorem startGameTimer_grid (s : GameState) :
    (startGameTimer s).grid =
      gridReset (adminOwnerId s.adminId)
        (adminOwnerName s.adminId (startGameTimer s).players) 0 s.grid := rfl

theorem startGameTimer_fields (s : GameState) :
    (startGameTimer s).adminId = s.adminId ∧
    (startGameTimer s).gameIntervalSet = true ∧
    (startGameTimer s).gameTimerActive = true ∧
    (startGameTimer s).cooldownActive = s.cooldownActive ∧
    (startGameTimer s).countdown = none ∧
    (startGameTimer s).winner = none ∧
    (startGameTimer s).timeLeft = 60 :=
  ⟨rfl, rfl, rfl, rfl, rfl, rfl, rfl⟩

theorem adminOwnerId_spec (o : Option String) (hwf : ∀ a, o = some a → a ≠ "") :
    (o = none ∧ adminOwnerId o = "admin") ∨
    (∃ a, o = some a ∧ a ≠ "" ∧ adminOwnerId o = a) := by
  cases h : truthyAdmin o with
  | none => exact Or.inl ⟨truthyAdmin_eq_none o hwf h, by simp [adminOwnerId, h]⟩
  | some a =>
      obtain ⟨ho, ha⟩ := truthyAdmin_eq_some o a h
      exact Or.inr ⟨a, ho, ha, by simp [adminOwnerId, h]⟩

theorem scores_calc (s : GameState) :
    ∀ p ∈ (calculateScores s).players, p.score = ownedCount (calculateScores s).grid p.id := by
  intro p hp
  obtain ⟨q, _, rfl⟩ := List.mem_map.mp hp
  rfl

theorem grid_cons_of_gridOk (g : List (Option Cell)) (h : gridOk g) :
    ∃ c rest, g = some c :: rest := by
  obtain ⟨c, hc⟩ := h.2 0 (by norm_num)
  cases g with
  | nil => cases hc
  | cons oc rest =>
      refine ⟨c, rest, ?_⟩
      simp only [List.get?_cons_zero, Option.some.injEq] at hc
      rw [hc]

theorem scores_startGameTimer (s : GameState)
    (hids : idsOk s.players)
    (hadm : ∀ a, s.adminId = some a → a ≠ "" ∧ a ≠ "admin")
    (hgok : gridOk s.grid) :
    ∀ p ∈ (startGameTimer s).players,
      p.score = ownedCount (startGameTimer s).grid p.id := by
  intro p hp
  rw [startGameTimer_players] at hp
  obtain ⟨q, hq, rfl⟩ := List.mem_map.mp hp
  obtain ⟨c0, rest, hg⟩ := grid_cons_of_gridOk s.grid hgok
  rw [startGameTimer_grid, hg]
  have hwf : ∀ a, s.adminId = some a → a ≠ "" := fun a ha => (hadm a ha).1
  rcases adminOwnerId_spec s.adminId hwf with ⟨hnone, hid⟩ | ⟨a, hsome, ha, hid⟩
  · rw [hid, ownedCount_gridReset_zero _ _ _ c0 rest (by decide)]
    have : ¬ ("admin" = q.id) := fun h => (hids q hq).2 h.symm
    rw [if_neg this, hnone]
    simp
  · rw [hid, ownedCount_gridReset_zero _ _ _ c0 rest ha, hsome]
    by_cases hqa : q.id = a
    · simp [hqa]
    · have h1 : ¬ (some q.id = some a) := by simpa using hqa
      have h2 : ¬ (a = q.id) := fun h => hqa h.symm
      rw [if_neg h1, if_neg h2]

theorem endGame_players (s : GameState) :
    (endGame s).players = s.players.map fun p => { p with score := ownedCount s.grid p.id } := rfl

theorem endGame_fields (s : GameState) :
    (endGame s).grid = s.grid ∧
    (endGame s).adminId = s.adminId ∧
    (endGame s).gameIntervalSet = s.gameIntervalSet ∧
    (endGame s).gameTimerActive = false ∧
    (endGame s).cooldownActive = true ∧
    (endGame s).countdown = some 10 ∧
    (endGame s).timeLeft = s.timeLeft :=
  ⟨rfl, rfl, rfl, rfl, rfl, rfl, rfl⟩

theorem inv_endGame (s : GameState) (h : GameInv s) : GameInv (endGame s) := by
  refine ⟨?_, ?_, ?_, ?_, ?_⟩
  · rw [endGame_players, (endGame_fields s).2.2.1]
    intro hne
    refine h.timer fun hnil => hne ?_
    rw [hnil]
    rfl
  · rw [endGame_players]
    exact idsOk_map_score _ _ h.ids
  · intro a ha
    rw [(endGame_fields s).2.1] at ha
    exact h.admin a ha
  · intro p hp
    rw [endGame_players] at hp
    obtain ⟨q, _, rfl⟩ := List.mem_map.mp hp
    rw [(endGame_fields s).1]
  · rw [(endGame_fields s).1]
    exact h.gok

theorem inv_timeLeft (s : GameState) (t : Int) (h : GameInv s) :
    GameInv { s with timeLeft := t } :=
  ⟨h.timer, h.ids, h.admin, h.scores, h.gok⟩

theorem inv_broadcast (s : GameState) (h : GameInv s) : GameInv (broadcast s) :=
  ⟨h.timer, h.ids, h.admin, h.scores, h.gok⟩

theorem inv_gameTick (s : GameState) (h : GameInv s) : GameInv (gameTick s) := by
  simp only [gameTick]
  split
  · split
    · exact inv_endGame _ (inv_timeLeft s _ h)
    · exact inv_broadcast _ (inv_timeLeft s _ h)
  · exact h

theorem inv_startGameTimer (s : GameState)
    (hids : idsOk s.players)
    (hadm : ∀ a, s.adminId = some a → a ≠ "" ∧ a ≠ "admin")
    (hgok : gridOk s.grid) : GameInv (startGameTimer s) := by
  refine ⟨fun _ => (startGameTimer_fields s).2.1, ?_, ?_,
    scores_startGameTimer s hids hadm hgok, ?_⟩
  · rw [startGameTimer_players]
    exact idsOk_map_score _ _ hids
  · intro a ha
    rw [(startGameTimer_fields s).1] at ha
    exact hadm a ha
  · rw [startGameTimer_grid]
    exact gridOk_gridReset _ _ _ hgok

theorem inv_cooldownTick (s : GameState) (h : GameInv s) : GameInv (cooldownTick s) := by
  simp only [cooldownTick]
  split
  · split
    · exact inv_startGameTimer _ h.ids h.admin h.gok
    · exact ⟨h.timer, h.ids, h.admin, h.scores, h.gok⟩
  · exact h

theorem inv_connect (s : GameState) (sid : String) (h : GameInv s)
    (h1 : ¬ sid = "") (h2 : ¬ sid = "admin") : GameInv (connectH s sid) := by
  unfold connectH
  split
  · refine ⟨h.timer, h.ids, ?_, h.scores, h.gok⟩
    intro a ha
    obtain rfl : sid = a := by simpa using ha
    exact ⟨h1, h2⟩
  · exact h

theorem inv_broadcast_calc (s : GameState)
    (htimer : s.players ≠ [] → s.gameIntervalSet = true)
    (hids : idsOk s.players)
    (hadm : ∀ a, s.adminId = some a → a ≠ "" ∧ a ≠ "admin")
    (hgok : gridOk s.grid) : GameInv (broadcast (calculateScores s)) := by
  refine ⟨?_, ?_, hadm, scores_calc s, hgok⟩
  · intro hne
    refine htimer fun hnil => hne ?_
    show (s.players.map _) = []
    rw [hnil]
    rfl
  · exact idsOk_map_score _ _ hids

theorem mkNewPlayer_id (s : GameState) (sid name color fresh : String) (ctry : Country) :
    (mkNewPlayer s sid name color fresh ctry).id = sid := by
  unfold mkNewPlayer
  split
  · rfl
  · split <;> rfl

theorem mkNewPlayer_name (s : GameState) (sid name color fresh : String) (ctry : Country) :
    (mkNewPlayer s sid name color fresh ctry).name = strTake15 name := by
  unfold mkNewPlayer
  split
  · rfl
  · split <;> rfl

theorem idsOk_append (ps : List Player) (q : Player) (h : idsOk ps)
    (h1 : q.id ≠ "") (h2 : q.id ≠ "admin") : idsOk (ps ++ [q]) := by
  intro p hp
  rcases List.mem_append.mp hp with hp | hp
  · exact h p hp
  · rw [List.mem_singleton.mp hp]
    exact ⟨h1, h2⟩

theorem inv_join (s : GameState) (sid name color fresh : String) (ctry : Country)
    (h : GameInv s) (h1 : ¬ sid = "") (h2 : ¬ sid = "admin") :
    GameInv (joinGame s sid name color ctry fresh).1 := by
  simp only [joinGame]
  split
  · exact h
  · have hids : idsOk (s.players ++ [mkNewPlayer s sid name color fresh ctry]) :=
      idsOk_append _ _ h.ids
        (by rw [mkNewPlayer_id]; exact h1)
        (by rw [mkNewPlayer_id]; exact h2)
    split
    case isTrue hset =>
      exact inv_broadcast_calc _ (fun _ => hset) hids h.admin h.gok
    case isFalse hset =>
      have hst := inv_startGameTimer
        { s with players := s.players ++ [mkNewPlayer s sid name color fresh ctry] }
        hids h.admin h.gok
      exact inv_broadcast_calc _ (fun _ => (startGameTimer_fields _).2.1)
        hst.ids hst.admin hst.gok

theorem inv_claim (s : GameState) (sid : String) (i : Nat) (h : GameInv s) :
    GameInv (claimSquare s sid i) := by
  simp only [claimSquare]
  split
  · exact h
  · split
    · exact h
    · split
      · exact h
      · exact inv_broadcast_calc _ h.timer h.ids h.admin (gridOk_gridSet _ _ _ h.gok)

theorem filter_ne_nil_of (ps : List Player) (f : Player → Bool)
    (h : ps.filter f ≠ []) : ps ≠ [] := by
  intro hnil
  rw [hnil] at h
  exact h rfl

theorem inv_finishDisconnect (s2 : GameState)
    (htimer : s2.players ≠ [] → s2.gameIntervalSet = true)
    (hids : idsOk s2.players)
    (hadm : ∀ a, s2.adminId = some a → a ≠ "" ∧ a ≠ "admin")
    (hgok : gridOk s2.grid) :
    GameInv (if s2.players.isEmpty then
      broadcast { s2 with gameIntervalSet := false, gameTimerActive := false,
                          timeLeft := 60, winner := none, countdown := none,
                          grid := gridReset "admin" "Admin" 0 s2.grid }
    else broadcast (calculateScores s2)) := by
  split
  case isTrue hemp =>
    have hnil : s2.players = [] := List.isEmpty_iff.mp hemp
    refine ⟨?_, ?_, hadm, ?_, gridOk_gridReset _ _ _ hgok⟩
    · intro hne
      exact absurd hnil hne
    · exact hids
    · intro p hp
      exact absurd (show p ∈ s2.players from hp)
        (by rw [hnil]; exact List.not_mem_nil p)
  case isFalse => exact inv_broadcast_calc s2 htimer hids hadm hgok

theorem promoteAdmin_nil (s1 : GameState) (hps : s1.players = []) :
    promoteAdmin s1 = { s1 with adminId := none } := by
  simp only [promoteAdmin, hps, List.head?_nil, truthyAdmin]

theorem promoteAdmin_cons (s1 : GameState) (q : Player) (rest : List Player)
    (hps : s1.players = q :: rest) (hq : q.id ≠ "") :
    promoteAdmin s1 =
      { s1 with adminId := some q.id,
                players := setColorFirst (q :: rest) q.id "#000000",
                grid := gridSet s1.grid 0 (some ⟨0, "#000000", q.id, q.name⟩) } := by
  have ht : truthyAdmin (some q.id) = some q.id := by
    simp [truthyAdmin, hq]
  have hfind : List.find? (fun p => p.id == q.id) (q :: rest) = some q :=
    List.find?_cons_of_pos _ (by simp)
  simp only [promoteAdmin, hps, List.head?_cons, ht, hfind]

theorem inv_disconnect (s : GameState) (sid : String) (h : GameInv s) :
    GameInv (disconnectH s sid) := by
  have hfid : idsOk (s.players.filter fun p => ¬ (p.id = sid)) := idsOk_filter _ _ h.ids
  have hftimer : (s.players.filter fun p => ¬ (p.id = sid)) ≠ [] →
      s.gameIntervalSet = true :=
    fun hne => h.timer (filter_ne_nil_of _ _ hne)
  simp only [disconnectH]
  by_cases hA : some sid = s.adminId
  · rw [if_pos hA]
    cases hps : s.players.filter (fun p => ¬ (p.id = sid)) with
    | nil =>
        rw [promoteAdmin_nil _ rfl]
        refine inv_finishDisconnect _ ?_ ?_ ?_ h.gok
        · intro hne
          exact absurd rfl hne
        · intro p hp
          cases hp
        · intro a ha
          cases ha
    | cons q rest =>
        rw [hps] at hfid hftimer
        have hq := hfid q (List.mem_cons_self q rest)
        rw [promoteAdmin_cons _ q rest rfl hq.1]
        refine inv_finishDisconnect _ ?_ ?_ ?_ (gridOk_gridSet _ _ _ h.gok)
        · intro _
          exact hftimer (List.cons_ne_nil q rest)
        · exact idsOk_setColorFirst _ _ _ hfid
        · intro a ha
          obtain rfl : q.id = a := by simpa using ha
          exact hq
  · rw [if_neg hA]
    exact inv_finishDisconnect _ hftimer hfid h.admin h.gok

theorem inv_step (s : GameState) (e : Ev) (h : GameInv s) (hok : Ev.okb s e = true) :
    GameInv (stepF s e) := by
  cases e with
  | connect sid =>
      simp only [Ev.okb, Bool.and_eq_true, Bool.not_eq_true', beq_eq_false_iff_ne] at hok
      exact inv_connect s sid h hok.1 hok.2
  | join sid name color fresh ctry =>
      simp only [Ev.okb, Bool.and_eq_true, Bool.not_eq_true', beq_eq_false_iff_ne] at hok
      exact inv_join s sid name color fresh ctry h hok.1.1 hok.1.2
  | claim sid i => exact inv_claim s sid i h
  | disconnect sid => exact inv_disconnect s sid h
  | gameTick => exact inv_gameTick s h
  | cooldownTick => exact inv_cooldownTick s h

theorem inv_init : GameInv initState := by
  refine ⟨?_, ?_, ?_, ?_, ?_, ?_⟩
  · intro hne
    exact absurd rfl hne
  · intro p hp
    cases hp
  · intro a ha
    cases ha
  · intro p hp
    cases hp
  · decide
  · intro i hi
    have hg : initGrid.get? i =
        some (if i = 0 then some ⟨0, "#000000", "admin", "Admin"⟩
              else some ⟨i, "#FFFFFF", "", ""⟩) := by
      unfold initGrid
      rw [List.get?_map, List.get?_range hi]
      rfl
    have hg2 : initState.grid.get? i =
        some (if i = 0 then some ⟨0, "#000000", "admin", "Admin"⟩
              else some ⟨i, "#FFFFFF", "", ""⟩) := hg
    by_cases h0 : i = 0
    · exact ⟨⟨0, "#000000", "admin", "Admin"⟩, by rw [hg2, if_pos h0]⟩
    · exact ⟨⟨i, "#FFFFFF", "", ""⟩, by rw [hg2, if_neg h0]⟩

theorem reach_inv (s : GameState) (h : Reach s) : GameInv s := by
  induction h with
  | init => exact inv_init
  | step hr hok ih => exact inv_step _ _ ih hok

/-! ### Concrete reachable states used by witnesses and counterexamples -/

def ctryAU : Country := ⟨"AU", "Australia"⟩

/-- Socket `a` connects (becoming admin) and joins as `Alice`. -/
def trA : List Ev :=
  [.connect "a", .join "a" "Alice" "#111111" "hsl(1, 1%, 1%)" ctryAU]

def sA : GameState := run initState trA

theorem reach_sA : Reach sA :=
  reach_run initState trA Reach.init (by decide)

/-- Three joins: the admin `Host`, then two 16-character names that collide
after truncation, both with colour `#222222`. -/
def trC : List Ev :=
  [ .connect "a",
    .join "a" "Host" "#111111" "hsl(9, 9%, 9%)" ctryAU,
    .connect "b",
    .join "b" "AAAAAAAAAAAAAAAB" "#222222" "hsl(8, 8%, 8%)" ctryAU,
    .connect "c",
    .join "c" "AAAAAAAAAAAAAAAC" "#222222" "hsl(7, 7%, 7%)" ctryAU ]

def sC : GameState := run initState trC

theorem reach_sC : Reach sC :=
  reach_run initState trC Reach.init (by decide)

/-- `sA` after a full 60-tick round: the session is in `Cooldown`. -/
def trD : List Ev := trA ++ List.replicate 60 Ev.gameTick

def sD : GameState := run initState trD

theorem reach_sD : Reach sD :=
  reach_run initState trD Reach.init (by decide)

/-- Socket `a` connects (admin) but never joins; `b` joins as `Bob` and
never claims; 59 ticks leave `timeLeft = 1` with every score `0`. -/
def trE : List Ev :=
  [.connect "a", .connect "b", .join "b" "Bob" "#222222" "hsl(5, 5%, 5%)" ctryAU]
    ++ List.replicate 59 Ev.gameTick

def sE : GameState := run initState trE

theorem reach_sE : Reach sE :=
  reach_run initState trE Reach.init (by decide)

/-- `sA` after 59 ticks: `timeLeft = 1`, Alice (the admin) has score 1. -/
def trF : List Ev := trA ++ List.replicate 59 Ev.gameTick

def sF : GameState := run initState trF

theorem reach_sF : Reach sF :=
  reach_run initState trF Reach.init (by decide)

/-! ### Claim C4 -/

/-- Claim C4: after every event-handling step (i.e. in every reachable
state), every roster entry's `score` equals the number of grid cells whose
`ownerId` equals that player's id. -/
theorem c4_score_invariant (s : GameState) (hR : Reach s) :
    ∀ p ∈ s.players, p.score = specOwnedCount s.grid p.id := by
  intro p hp
  have h := reach_inv s hR
  rw [h.scores p hp]
  exact ownedCount_eq_spec _ _ (h.ids p hp).1

/-- Witness for C4 at the concrete reachable state `sA` and its player
`Alice` (the admin, who owns cell 0 and has score 1). -/
theorem c4_score_invariant_witness :
    (⟨"a", "Alice", "#000000", 1, some ctryAU⟩ : Player) ∈ sA.players ∧
    (1 : Nat) = specOwnedCount sA.grid "a" :=
  ⟨by decide, c4_score_invariant sA reach_sA
    ⟨"a", "Alice", "#000000", 1, some ctryAU⟩ (by decide)⟩

/-! ### Claim C9 -/

/-- Claim C9: a `joinGame` whose `name` exactly equals the name of a player
already in the roster returns `success: false` with the fixed message and
leaves the whole session state unchanged. -/
theorem c9_name_taken (s : GameState) (sid name color fresh : String) (ctry : Country)
    (h : ∃ p ∈ s.players, p.name = name) :
    joinGame s sid name color ctry fresh =
      (s, ⟨false, some "This name is already taken. Please choose a different one."⟩) := by
  have hb : s.players.any (fun p => p.name == name) = true := by
    obtain ⟨p, hp, hn⟩ := h
    exact List.any_eq_true.mpr ⟨p, hp, by simp [hn]⟩
  simp [joinGame, hb]

/-- Witness for C9: after `sA`, a second join under the taken name
`"Alice"` is rejected verbatim. -/
theorem c9_name_taken_witness :
    joinGame sA "b" "Alice" "#333333" ctryAU "hsl(2, 2%, 2%)" =
      (sA, ⟨false, some "This name is already taken. Please choose a different one."⟩) :=
  c9_name_taken sA "b" "Alice" "#333333" "hsl(2, 2%, 2%)" ctryAU (by decide)

/-! ### Claim C10 -/

/-- Claim C10: `joinGame` never checks the caller's id: if the requested
name is free, the join succeeds and appends a roster entry carrying the
caller's id even when that id is already present, so one connection joining
twice under two names yields two entries with the same id. -/
theorem c10_duplicate_id (s : GameState) (hR : Reach s) (sid name color fresh : String)
    (ctry : Country) (hid : ∃ p ∈ s.players, p.id = sid)
    (hname : ∀ p ∈ s.players, p.name ≠ name) :
    (joinGame s sid name color ctry fresh).1.players.map (fun p => (p.id, p.name)) =
      s.players.map (fun p => (p.id, p.name)) ++ [(sid, strTake15 name)] ∧
    (joinGame s sid name color ctry fresh).2.success = true := by
  have hb : s.players.any (fun p => p.name == name) = false := by
    rw [List.any_eq_false]
    intro p hp
    simp [hname p hp]
  have hset : s.gameIntervalSet = true :=
    (reach_inv s hR).timer (by obtain ⟨p, hp, _⟩ := hid; exact List.ne_nil_of_mem hp)
  have hj : joinGame s sid name color ctry fresh =
      (broadcast (calculateScores
        { s with players := s.players ++ [mkNewPlayer s sid name color fresh ctry] }),
       ⟨true, none⟩) := by
    simp [joinGame, hb, hset]
  rw [hj]
  constructor
  · show ((s.players ++ [mkNewPlayer s sid name color fresh ctry]).map _).map _ = _
    simp [List.map_map, List.map_append, mkNewPlayer_id, mkNewPlayer_name, Function.comp]
  · rfl

/-- Witness for C10: in `sA`, connection `"a"` (already joined as `Alice`)
joins again as `Bob`; the roster then holds two entries with id `"a"`. -/
theorem c10_duplicate_id_witness :
    (joinGame sA "a" "Bob" "#333333" ctryAU "hsl(3, 3%, 3%)").1.players.map
        (fun p => (p.id, p.name)) = [("a", "Alice"), ("a", "Bob")] ∧
    (joinGame sA "a" "Bob" "#333333" ctryAU "hsl(3, 3%, 3%)").2.success = true := by
  have h := c10_duplicate_id sA reach_sA "a" "Bob" "#333333" "hsl(3, 3%, 3%)" ctryAU
    (by decide) (by decide)
  exact ⟨h.1.trans (by decide), h.2⟩

/-! ### Claim C1 -/

/-- Claim C1, counterexample to the range-validation part: in the reachable
Active state `sA` the joined player `"a"` sends `claimSquare(100)`; cell id
`100` is outside `0..99`, yet the grid is mutated (the array grows from 100
to 101 entries), so the claim's "rejected with no state change" fails. -/
theorem c1_counterexample :
    Reach sA ∧ phase sA = Phase.Active ∧ 100 ∉ List.range 100 ∧
    sA.grid.length = 100 ∧ (claimSquare sA "a" 100).grid.length = 101 ∧
    (claimSquare sA "a" 100).grid ≠ sA.grid :=
  ⟨reach_sA, by decide, by decide, by decide, by decide, by decide⟩

/-- Claim C1 (amended): a `claimSquare(cellId)` event is rejected with no
state change whenever `phase ≠ Active`, or `cellId = 0` with a non-admin
caller, or the caller's id belongs to no joined player.  (The claim's
remaining condition — `cellId` outside `0..99` — is not validated by the
code; see `c1_counterexample`.) -/
theorem c1_rejected_no_change (s : GameState) (hR : Reach s) (sid : String) (i : Nat)
    (hcond : phase s ≠ Phase.Active ∨ (i = 0 ∧ s.adminId ≠ some sid) ∨
      s.players.find? (fun p => p.id == sid) = none) :
    (claimSquare s sid i).grid = s.grid ∧
    (claimSquare s sid i).players = s.players ∧
    (claimSquare s sid i).timeLeft = s.timeLeft ∧
    (claimSquare s sid i).countdown = s.countdown ∧
    (claimSquare s sid i).winner = s.winner ∧
    (claimSquare s sid i).adminId = s.adminId := by
  suffices h : claimSquare s sid i = s by
    rw [h]
    exact ⟨rfl, rfl, rfl, rfl, rfl, rfl⟩
  simp only [claimSquare]
  split
  · rfl
  case isFalse hg =>
    push_neg at hg
    cases hf : s.players.find? (fun p => p.id == sid) with
    | none => rfl
    | some player =>
        dsimp only
        by_cases hg2 : i = 0 ∧ ¬ (some sid = s.adminId)
        · rw [if_pos hg2]
        · rw [if_neg hg2]
          exfalso
          rcases hcond with hph | ⟨h0, hadm⟩ | hnone
          · have hcd : s.countdown = none := hg.1
            cases hGIS : s.gameIntervalSet with
            | true => exact hph (by simp [phase, hcd, hGIS])
            | false =>
                have hpl : s.players = [] := by
                  by_contra hne
                  rw [(reach_inv s hR).timer hne] at hGIS
                  cases hGIS
                rw [hpl] at hf
                cases hf
          · exact hg2 ⟨h0, fun he => hadm he.symm⟩
          · rw [hnone] at hf
            cases hf

/-- Witness for C1 at a concrete input: in `sA` a claim by the unjoined
socket `"z"` changes nothing. -/
theorem c1_rejected_no_change_witness :
    (claimSquare sA "z" 5).grid = sA.grid ∧
    (claimSquare sA "z" 5).players = sA.players ∧
    (claimSquare sA "z" 5).timeLeft = sA.timeLeft ∧
    (claimSquare sA "z" 5).countdown = sA.countdown ∧
    (claimSquare sA "z" 5).winner = sA.winner ∧
    (claimSquare sA "z" 5).adminId = sA.adminId :=
  c1_rejected_no_change sA reach_sA "z" 5 (Or.inr (Or.inr (by decide)))

/-! ### Claim C3 -/

theorem connectH_players (s : GameState) (sid : String) :
    (connectH s sid).players = s.players := by
  unfold connectH
  split <;> rfl

theorem names_broadcast_calc (t : GameState) :
    ((broadcast (calculateScores t)).players.map fun p => p.name) =
      t.players.map fun p => p.name :=
  names_map_score _ _

theorem names_startGameTimer (t : GameState) :
    ((startGameTimer t).players.map fun p => p.name) = t.players.map fun p => p.name := by
  rw [startGameTimer_players]
  exact names_map_score _ _

theorem names_gameTick (s : GameState) :
    ((gameTick s).players.map fun p => p.name) = s.players.map fun p => p.name := by
  simp only [gameTick]
  split
  · split
    · rw [endGame_players]
      exact names_map_score _ _
    · rfl
  · rfl

theorem names_cooldownTick (s : GameState) :
    ((cooldownTick s).players.map fun p => p.name) = s.players.map fun p => p.name := by
  simp only [cooldownTick]
  split
  · split
    · exact names_startGameTimer _
    · rfl
  · rfl

theorem names_claimSquare (s : GameState) (sid : String) (i : Nat) :
    ((claimSquare s sid i).players.map fun p => p.name) =
      s.players.map fun p => p.name := by
  simp only [claimSquare]
  split
  · rfl
  · cases s.players.find? (fun p => p.id == sid) with
    | none => rfl
    | some player =>
        dsimp only
        split
        · rfl
        · exact names_map_score _ _

theorem names_promoteAdmin (s1 : GameState) :
    ((promoteAdmin s1).players.map fun p => p.name) = s1.players.map fun p => p.name := by
  simp only [promoteAdmin]
  cases hh : s1.players.head? with
  | none => simp [truthyAdmin]
  | some p =>
      dsimp only
      cases ht : truthyAdmin (some p.id) with
      | none => rfl
      | some a =>
          dsimp only
          cases hf : s1.players.find? (fun q => q.id == a) with
          | none => rfl
          | some ap =>
              dsimp only
              exact setColorFirst_map_name _ _ _

theorem names_disconnectH (s : GameState) (sid : String) :
    ((disconnectH s sid).players.map fun p => p.name) =
      (s.players.filter fun p => ¬ (p.id = sid)).map fun p => p.name := by
  simp only [disconnectH]
  by_cases hA : some sid = s.adminId
  · rw [if_pos hA]
    split
    · exact names_promoteAdmin _
    · exact (names_broadcast_calc _).trans (names_promoteAdmin _)
  · rw [if_neg hA]
    split
    · rfl
    · exact names_broadcast_calc _

theorem names_joinGame (s : GameState) (sid name color fresh : String) (ctry : Country)
    (hb : s.players.any (fun p => p.name == name) = false) :
    ((joinGame s sid name color ctry fresh).1.players.map fun p => p.name) =
      (s.players.map fun p => p.name) ++ [strTake15 name] := by
  by_cases hgis : s.gameIntervalSet
  · have hj : (joinGame s sid name color ctry fresh).1 =
        broadcast (calculateScores
          { s with players := s.players ++ [mkNewPlayer s sid name color fresh ctry] }) := by
      simp [joinGame, hb, hgis]
    rw [hj, names_broadcast_calc]
    show ((s.players ++ [mkNewPlayer s sid name color fresh ctry]).map fun p => p.name) = _
    rw [List.map_append]
    simp [mkNewPlayer_name]
  · have hj : (joinGame s sid name color ctry fresh).1 =
        broadcast (calculateScores (startGameTimer
          { s with players := s.players ++ [mkNewPlayer s sid name color fresh ctry] })) := by
      simp [joinGame, hb, hgis]
    rw [hj, names_broadcast_calc, names_startGameTimer]
    show ((s.players ++ [mkNewPlayer s sid name color fresh ctry]).map fun p => p.name) = _
    rw [List.map_append]
    simp [mkNewPlayer_name]

/-- Claim C3 counterexample: in the reachable state `sC`, roster entries 1
and 2 are distinct players yet share both their `name` (two 16-character
names truncate to the same 15 characters, and the taken-name check compares
the untruncated request against stored truncated names) and their `color`
(client-chosen colours are stored without deduplication). -/
theorem c3_counterexample :
    Reach sC ∧
    sC.players.get? 1 ≠ sC.players.get? 2 ∧
    (sC.players.get? 1).isSome = true ∧ (sC.players.get? 2).isSome = true ∧
    ((sC.players.get? 1).map fun p => p.name) = ((sC.players.get? 2).map fun p => p.name) ∧
    ((sC.players.get? 1).map fun p => p.color) =
      ((sC.players.get? 2).map fun p => p.color) :=
  ⟨reach_sC, by decide, by decide, by decide, by decide, by decide⟩

/-- Claim C3 (amended): provided every `joinGame` request used a name of at
most 15 characters (unchanged by truncation), distinct roster entries have
pairwise distinct names after every event-handling step.  The colour half
of the claim is false (see `c3_counterexample`), and so is the name half
for names longer than 15 characters. -/
theorem c3_unique_names (s : GameState) (hS : ReachS s) :
    (s.players.map fun p => p.name).Nodup := by
  induction hS with
  | init => simp [initState]
  | @step s' e hr hok hshort ih =>
      cases e with
      | connect sid =>
          simp only [stepF]
          rw [show (connectH s' sid).players = s'.players from connectH_players s' sid]
          exact ih
      | join sid name color fresh ctry =>
          simp only [stepF]
          cases hbv : s'.players.any (fun p => p.name == name) with
          | true =>
              have hj : (joinGame s' sid name color ctry fresh).1 = s' := by
                simp [joinGame, hbv]
              rw [hj]
              exact ih
          | false =>
              rw [names_joinGame s' sid name color fresh ctry hbv]
              have hname_eq : strTake15 name = name := by
                simpa [Ev.shortb] using hshort
              rw [hname_eq]
              have hnotin : name ∉ s'.players.map fun p => p.name := by
                rw [List.any_eq_false] at hbv
                intro hmem
                obtain ⟨p, hp, hpn⟩ := List.mem_map.mp hmem
                have hne : ¬ p.name = name := by simpa using hbv p hp
                exact hne hpn
              simp [List.nodup_append, ih, hnotin]
      | claim sid i =>
          simp only [stepF]
          rw [names_claimSquare]
          exact ih
      | disconnect sid =>
          simp only [stepF]
          rw [names_disconnectH]
          exact List.Nodup.sublist (List.Sublist.map _ (List.filter_sublist _)) ih
      | gameTick =>
          simp only [stepF]
          rw [names_gameTick]
          exact ih
      | cooldownTick =>
          simp only [stepF]
          rw [names_cooldownTick]
          exact ih

theorem reachS_sA : ReachS sA :=
  reachS_run initState trA ReachS.init (by decide)

/-- Witness for the amended C3 at the concrete short-named state `sA`. -/
theorem c3_unique_names_witness : (sA.players.map fun p => p.name).Nodup :=
  c3_unique_names sA reachS_sA

theorem gridReset_white (a n : String) (g : List (Option Cell)) (i : Nat) (hi : i ≠ 0)
    (cl : Cell) (h : (gridReset a n 0 g).get? i = some (some cl)) :
    cl = ⟨i, "#FFFFFF", "", ""⟩ := by
  rw [gridReset_get?] at h
  cases hgi : g.get? i with
  | none => rw [hgi] at h; cases h
  | some oc =>
      rw [hgi] at h
      cases oc with
      | none => simp at h
      | some c0 =>
          simp only [Option.map_some', Option.some.injEq] at h
          rw [if_neg (by omega)] at h
          rw [← h]
          simp

/-! ### Claim C2 -/

/-- Claim C2 evaluated at its failing input: in the reachable Active state
`sA` the admin connection `"a"` (joined as `Alice`) claims cell `5`; the
handler's only ownership guard is `squareId === 0 && socket.id !== adminId`,
so the admin's claim on a non-zero cell goes through and overwrites the
cell — contradicting both the claim and the code's own comment ("Admin
cannot claim any square except the first one"). -/
theorem c2_admin_claim_not_restricted :
    sA.adminId = some "a" ∧ phase sA = Phase.Active ∧
    (∃ p ∈ sA.players, p.id = "a") ∧
    (claimSquare sA "a" 5).grid.get? 5 = some (some ⟨5, "#000000", "a", "Alice"⟩) ∧
    (claimSquare sA "a" 5).grid ≠ sA.grid :=
  ⟨by decide, by decide, by decide, by decide, by decide⟩

/-! ### Claim C6 -/

/-- Claim C6: during `Active`, a game tick with more than one second left
decrements `timeLeft` by exactly one and broadcasts, changing nothing else;
the tick that takes `timeLeft` to `0` moves the session to `Cooldown` with
`countdown = 10`; a cooldown tick decrements `countdown`; and the cooldown
tick that reaches `0` restarts the round: phase `Active`, `timeLeft = 60`
and every present grid cell except cell `0` reset to unclaimed white. -/
theorem c6_tick_behaviour (s : GameState) (c : Int) :
    (phase s = Phase.Active → s.gameTimerActive = true → 1 < s.timeLeft →
      gameTick s = { s with timeLeft := s.timeLeft - 1, broadcasts := s.broadcasts + 1 }) ∧
    (s.gameTimerActive = true → s.timeLeft = 1 →
      phase (gameTick s) = Phase.Cooldown ∧ (gameTick s).countdown = some 10) ∧
    (s.cooldownActive = true → s.countdown = some c → 1 < c →
      (cooldownTick s).countdown = some (c - 1) ∧
      phase (cooldownTick s) = Phase.Cooldown) ∧
    (s.cooldownActive = true → s.countdown = some 1 →
      phase (cooldownTick s) = Phase.Active ∧ (cooldownTick s).timeLeft = 60 ∧
      (cooldownTick s).gameTimerActive = true ∧
      ∀ i : Nat, i ≠ 0 → ∀ cl : Cell,
        (cooldownTick s).grid.get? i = some (some cl) → cl = ⟨i, "#FFFFFF", "", ""⟩) := by
  refine ⟨?_, ?_, ?_, ?_⟩
  · intro _ hact ht
    simp only [gameTick, hact, if_true]
    rw [if_neg (by omega)]
    rfl
  · intro hact ht
    have hg : gameTick s = endGame { s with timeLeft := s.timeLeft - 1 } := by
      simp only [gameTick, hact, if_true]
      rw [if_pos (by omega)]
    rw [hg]
    constructor
    · simp [phase, (endGame_fields _).2.2.2.2.2.1]
    · exact (endGame_fields _).2.2.2.2.2.1
  · intro hca hcd hc1
    have hg : cooldownTick s = broadcast { s with countdown := some (c - 1) } := by
      simp only [cooldownTick, hca, hcd, if_true]
      rw [if_neg (by omega)]
    rw [hg]
    exact ⟨rfl, by simp [phase, broadcast]⟩
  · intro hca hcd
    have hg : cooldownTick s = startGameTimer
        { (broadcast { s with countdown := some ((1 : Int) - 1) })
            with cooldownActive := false } := by
      simp only [cooldownTick, hca, hcd, if_true]
      rw [if_pos (by omega)]
    rw [hg]
    refine ⟨?_, (startGameTimer_fields _).2.2.2.2.2.2, (startGameTimer_fields _).2.2.1, ?_⟩
    · simp [phase, (startGameTimer_fields _).2.2.2.2.1, (startGameTimer_fields _).2.1]
    · intro i hi cl hcl
      rw [startGameTimer_grid] at hcl
      exact gridReset_white _ _ _ i hi cl hcl

/-- `sD` after nine cooldown ticks: `countdown = 1`. -/
def trH : List Ev := trD ++ List.replicate 9 Ev.cooldownTick

def sH : GameState := run initState trH

/-- Witness for C6, instantiating the tick theorem at the concrete states
`sA` (Active, `timeLeft = 60`), `sD` (Cooldown, `countdown = 10`) and `sH`
(Cooldown, `countdown = 1`). -/
theorem c6_tick_behaviour_witness :
    gameTick sA = { sA with timeLeft := sA.timeLeft - 1, broadcasts := sA.broadcasts + 1 } ∧
    (cooldownTick sD).countdown = some 9 ∧
    phase (cooldownTick sH) = Phase.Active ∧ (cooldownTick sH).timeLeft = 60 := by
  refine ⟨(c6_tick_behaviour sA 0).1 (by decide) (by decide) (by decide), ?_, ?_, ?_⟩
  · have h := ((c6_tick_behaviour sD 10).2.2.1 (by decide) (by decide) (by decide)).1
    simpa using h
  · exact ((c6_tick_behaviour sH 0).2.2.2 (by decide) (by decide)).1
  · exact ((c6_tick_behaviour sH 0).2.2.2 (by decide) (by decide)).2.1

/-! ### Claim C7 -/

/-- Claim C7 counterexample: `sD` is in `Cooldown` with one player and a
running cooldown interval; when that last player disconnects, the handler
clears only `gameInterval` — the cooldown interval keeps running
(`cooldownActive` is still `true` afterwards), so "all running timers are
stopped" fails.  (The next cooldown callback will even restart the round
with zero players.) -/
theorem c7_counterexample :
    Reach sD ∧ phase sD = Phase.Cooldown ∧ sD.cooldownActive = true ∧
    (disconnectH sD "a").players = [] ∧
    (disconnectH sD "a").cooldownActive = true ∧
    (disconnectH sD "a").countdown = none ∧
    (cooldownTick (disconnectH sD "a")).gameTimerActive = true :=
  ⟨reach_sD, by decide, by decide, by decide, by decide, by decide, by decide⟩

/-- Claim C7 (amended): when the last player disconnects, in any phase, the
game timer is stopped and the session returns to the Lobby initial
configuration — cell 0 owned by the sentinel admin identity with colour
`#000000`, every other present cell below 100 unclaimed white,
`timeLeft = 60`, `winner = null`, `countdown = null`.  However, a running
cooldown interval is NOT stopped (it is a local of `endGame` that the
disconnect handler cannot reach): `cooldownActive` is unchanged. -/
theorem c7_last_disconnect_reset (s : GameState) (hR : Reach s) (sid : String)
    (hlast : s.players.filter (fun p => ¬ (p.id = sid)) = []) :
    (disconnectH s sid).players = [] ∧
    (disconnectH s sid).gameTimerActive = false ∧
    (disconnectH s sid).gameIntervalSet = false ∧
    (disconnectH s sid).timeLeft = 60 ∧
    (disconnectH s sid).winner = none ∧
    (disconnectH s sid).countdown = none ∧
    (disconnectH s sid).grid.get? 0 = some (some ⟨0, "#000000", "admin", "Admin"⟩) ∧
    (∀ i : Nat, 0 < i → i < 100 →
      (disconnectH s sid).grid.get? i = some (some ⟨i, "#FFFFFF", "", ""⟩)) ∧
    (disconnectH s sid).cooldownActive = s.cooldownActive := by
  have hgok := (reach_inv s hR).gok
  have hD : disconnectH s sid = broadcast
      { players := [], grid := gridReset "admin" "Admin" 0 s.grid, timeLeft := 60,
        gameIntervalSet := false, gameTimerActive := false,
        cooldownActive := s.cooldownActive, winner := none, countdown := none,
        adminId := (if some sid = s.adminId then none else s.adminId),
        broadcasts := s.broadcasts } := by
    simp only [disconnectH]
    by_cases hA : some sid = s.adminId
    · rw [if_pos hA, promoteAdmin_nil _ hlast, hlast]
      simp [broadcast]
      rw [if_pos hA]
    · rw [if_neg hA, hlast]
      simp [broadcast]
      rw [if_neg hA]
  rw [hD]
  refine ⟨rfl, rfl, rfl, rfl, rfl, rfl, ?_, ?_, rfl⟩
  · show (gridReset "admin" "Admin" 0 s.grid).get? 0 = _
    obtain ⟨c0, hc0⟩ := hgok.2 0 (by norm_num)
    rw [gridReset_get?, hc0]
    rfl
  · intro i hi hi100
    show (gridReset "admin" "Admin" 0 s.grid).get? i = _
    obtain ⟨ci, hci⟩ := hgok.2 i hi100
    rw [gridReset_get?, hci]
    simp only [Option.map_some']
    rw [if_neg (by omega)]
    simp

/-- Witness for the amended C7: the sole player `"a"` of `sA` disconnects. -/
theorem c7_last_disconnect_reset_witness :
    (disconnectH sA "a").players = [] ∧
    (disconnectH sA "a").gameTimerActive = false ∧
    (disconnectH sA "a").gameIntervalSet = false ∧
    (disconnectH sA "a").timeLeft = 60 ∧
    (disconnectH sA "a").winner = none ∧
    (disconnectH sA "a").countdown = none ∧
    (disconnectH sA "a").grid.get? 0 = some (some ⟨0, "#000000", "admin", "Admin"⟩) ∧
    (∀ i : Nat, 0 < i → i < 100 →
      (disconnectH sA "a").grid.get? i = some (some ⟨i, "#FFFFFF", "", ""⟩)) ∧
    (disconnectH sA "a").cooldownActive = sA.cooldownActive :=
  c7_last_disconnect_reset sA reach_sA "a" (by decide)

/-! ### Claim C8 -/

/-- Claim C8: when the connection holding the admin role disconnects while
at least one player remains, then within the same event-handling step the
first remaining roster entry becomes the new admin, that entry's colour is
forced to `#000000`, and cell 0 is rewritten with the promoted player's id
and name. -/
theorem c8_admin_promotion (s : GameState) (hR : Reach s) (sid : String) (q : Player)
    (rest : List Player) (hadm : s.adminId = some sid)
    (hrem : s.players.filter (fun p => ¬ (p.id = sid)) = q :: rest) :
    (disconnectH s sid).adminId = some q.id ∧
    (∃ p rest2, (disconnectH s sid).players = p :: rest2 ∧
      p.id = q.id ∧ p.name = q.name ∧ p.color = "#000000") ∧
    (disconnectH s sid).grid.get? 0 = some (some ⟨0, "#000000", q.id, q.name⟩) := by
  have hinv := reach_inv s hR
  have hqmem : q ∈ s.players.filter (fun p => ¬ (p.id = sid)) := by
    rw [hrem]
    exact List.mem_cons_self q rest
  have hq := idsOk_filter _ _ hinv.ids q hqmem
  have hscf : setColorFirst (q :: rest) q.id "#000000" =
      { q with color := "#000000" } :: rest := by
    simp [setColorFirst]
  have hD : disconnectH s sid = broadcast (calculateScores
      { players := { q with color := "#000000" } :: rest,
        grid := gridSet s.grid 0 (some ⟨0, "#000000", q.id, q.name⟩),
        timeLeft := s.timeLeft, gameIntervalSet := s.gameIntervalSet,
        gameTimerActive := s.gameTimerActive, cooldownActive := s.cooldownActive,
        winner := s.winner, countdown := s.countdown, adminId := some q.id,
        broadcasts := s.broadcasts }) := by
    simp only [disconnectH]
    rw [if_pos hadm.symm, promoteAdmin_cons _ q rest hrem hq.1, hrem, hscf]
    rw [if_neg (by simp)]
  rw [hD]
  refine ⟨rfl, ⟨_, _, rfl, rfl, rfl, rfl⟩, ?_⟩
  exact gridSet_get?_self _ _ _ (lt_of_lt_of_le (by norm_num) hinv.gok.1)

/-- Players `Alice` (admin) and `Bob` are joined. -/
def trG : List Ev :=
  [ .connect "a",
    .join "a" "Alice" "#111111" "hsl(1, 1%, 1%)" ctryAU,
    .connect "b",
    .join "b" "Bob" "#222222" "hsl(2, 2%, 2%)" ctryAU ]

def sG : GameState := run initState trG

theorem reach_sG : Reach sG :=
  reach_run initState trG Reach.init (by decide)

/-- Witness for C8: the admin `"a"` of `sG` disconnects; `Bob` is promoted,
recoloured black and handed cell 0. -/
theorem c8_admin_promotion_witness :
    (disconnectH sG "a").adminId = some "b" ∧
    (∃ p rest2, (disconnectH sG "a").players = p :: rest2 ∧
      p.id = "b" ∧ p.name = "Bob" ∧ p.color = "#000000") ∧
    (disconnectH sG "a").grid.get? 0 = some (some ⟨0, "#000000", "b", "Bob"⟩) :=
  c8_admin_promotion sG reach_sG "a" ⟨"b", "Bob", "#222222", 0, some ctryAU⟩ []
    (by decide) (by decide)

/-! ### Claim C5 -/

/-- The `maxScore`/`winningPlayer` scan returns the accumulator when no
score beats it, and otherwise the first player attaining the overall
maximum (strictly greater scores replace the record, later ties do not). -/
theorem pickWinnerAux_spec (ps : List Player) (m : Nat) (w : Option Player) :
    ((∀ q ∈ ps, q.score ≤ m) ∧ pickWinnerAux ps (m, w) = (m, w)) ∨
    (∃ l1 p' l2, ps = l1 ++ p' :: l2 ∧ m < p'.score ∧
      (∀ q ∈ l1, q.score < p'.score) ∧ (∀ q ∈ l2, q.score ≤ p'.score) ∧
      pickWinnerAux ps (m, w) = (p'.score, some p')) := by
  induction ps generalizing m w with
  | nil => exact Or.inl ⟨fun q hq => absurd hq (List.not_mem_nil q), rfl⟩
  | cons p rest ih =>
      by_cases hp : m < p.score
      · have hstep : pickWinnerAux (p :: rest) (m, w) =
            pickWinnerAux rest (p.score, some p) := by
          simp [pickWinnerAux, hp]
        rcases ih p.score (some p) with ⟨hall, heq⟩ | ⟨l1, p', l2, hsplit, hlt, hl1, hl2, heq⟩
        · refine Or.inr ⟨[], p, rest, rfl, hp, ?_, hall, ?_⟩
          · intro q hq
            cases hq
          · rw [hstep, heq]
        · refine Or.inr ⟨p :: l1, p', l2, by rw [hsplit]; rfl, lt_trans hp hlt, ?_, hl2, ?_⟩
          · intro q hq
            rcases List.mem_cons.mp hq with rfl | hq
            · exact hlt
            · exact hl1 q hq
          · rw [hstep, heq]
      · have hstep : pickWinnerAux (p :: rest) (m, w) = pickWinnerAux rest (m, w) := by
          simp [pickWinnerAux, hp]
        rcases ih m w with ⟨hall, heq⟩ | ⟨l1, p', l2, hsplit, hlt, hl1, hl2, heq⟩
        · refine Or.inl ⟨?_, by rw [hstep, heq]⟩
          intro q hq
          rcases List.mem_cons.mp hq with rfl | hq
          · omega
          · exact hall q hq
        · refine Or.inr ⟨p :: l1, p', l2, by rw [hsplit]; rfl, hlt, ?_, hl2,
            by rw [hstep, heq]⟩
          intro q hq
          rcases List.mem_cons.mp hq with rfl | hq
          · omega
          · exact hl1 q hq

theorem endGame_winner (s : GameState) :
    (endGame s).winner =
      match pickWinner (s.players.map fun p => { p with score := ownedCount s.grid p.id }) with
      | some w => some w
      | none =>
          match truthyAdmin s.adminId with
          | some a =>
              (s.players.map fun p => { p with score := ownedCount s.grid p.id }).find?
                (fun p => p.id == a)
          | none => some sentinelAdmin := rfl

/-- Claim C5 counterexample: in the reachable state `sE` the round ends
(`timeLeft` reaches 0) with every player's score 0 and a current admin
(`adminId = "a"`, a connection that never joined); the code then sets
`winner` to JavaScript `undefined` (modelled `none`) rather than to the
current admin. -/
theorem c5_counterexample :
    Reach sE ∧ sE.gameTimerActive = true ∧ sE.timeLeft = 1 ∧
    sE.adminId = some "a" ∧ (∀ p ∈ sE.players, p.score = 0) ∧
    sE.players ≠ [] ∧ (gameTick sE).winner = none :=
  ⟨reach_sE, by decide, by decide, by decide, by decide, by decide, by decide⟩

/-- Claim C5 (amended): when an Active round ends, if some player has a
positive score then `winner` is the first player in roster order holding
the highest score; if no player has a positive score and the current
admin's id belongs to a roster entry, `winner` is set to that entry (the
admin).  (If the admin connection never joined, `winner` is left unset —
see `c5_counterexample`; with no admin at all a sentinel Admin object is
used.) -/
theorem c5_round_end_winner (s : GameState) (hR : Reach s)
    (hact : s.gameTimerActive = true) (ht : s.timeLeft ≤ 1) :
    ((∃ p ∈ s.players, 0 < p.score) →
      ∃ l1 w l2, s.players = l1 ++ w :: l2 ∧ (gameTick s).winner = some w ∧
        (∀ q ∈ l1, q.score < w.score) ∧ (∀ q ∈ l2, q.score ≤ w.score)) ∧
    ((∀ p ∈ s.players, p.score = 0) → ∀ a, s.adminId = some a →
      (∃ p ∈ s.players, p.id = a) →
      ∃ w ∈ s.players, w.id = a ∧ (gameTick s).winner = some w) := by
  have hinv := reach_inv s hR
  have hps : (s.players.map fun p => { p with score := ownedCount s.grid p.id })
      = s.players := by
    have heach : ∀ p ∈ s.players,
        ({ p with score := ownedCount s.grid p.id } : Player) = p := fun p hp => by
      rw [← hinv.scores p hp]
    rw [List.map_congr_left heach, List.map_id']
  have hg : gameTick s = endGame { s with timeLeft := s.timeLeft - 1 } := by
    simp only [gameTick, hact, if_true]
    rw [if_pos (by omega)]
  have hw : (gameTick s).winner =
      match pickWinner s.players with
      | some w => some w
      | none =>
          match truthyAdmin s.adminId with
          | some a => s.players.find? (fun p => p.id == a)
          | none => some sentinelAdmin := by
    rw [hg]
    show (match pickWinner (s.players.map fun p : Player =>
        { p with score := ownedCount s.grid p.id }) with
      | some w => some w
      | none =>
          match truthyAdmin s.adminId with
          | some a =>
              (s.players.map fun p : Player =>
                { p with score := ownedCount s.grid p.id }).find? (fun p => p.id == a)
          | none => some sentinelAdmin) = _
    rw [hps]
  constructor
  · rintro ⟨p0, hp0, hpos⟩
    rcases pickWinnerAux_spec s.players 0 none with ⟨hall, _⟩ | ⟨l1, p', l2, hsplit, _, hl1, hl2, heq⟩
    · exact absurd hpos (by simpa using hall p0 hp0)
    · refine ⟨l1, p', l2, hsplit, ?_, hl1, hl2⟩
      rw [hw]
      have hpk : pickWinner s.players = some p' := by
        rw [pickWinner, heq]
      rw [hpk]
  · intro hzero a ha hmem
    have hpw : pickWinner s.players = none := by
      rcases pickWinnerAux_spec s.players 0 none with ⟨_, heq⟩ | ⟨l1, p', l2, hsplit, hlt, _, _, heq⟩
      · rw [pickWinner, heq]
      · exfalso
        have hp'mem : p' ∈ s.players := by
          rw [hsplit]
          exact List.mem_append.mpr (Or.inr (List.mem_cons_self _ _))
        have := hzero p' hp'mem
        omega
    have hta : truthyAdmin s.adminId = some a := by
      rw [ha]
      simp [truthyAdmin, (hinv.admin a ha).1]
    obtain ⟨p0, hp0, hpid⟩ := hmem
    have hsome : (s.players.find? (fun p => p.id == a)).isSome := by
      rw [List.find?_isSome]
      exact ⟨p0, hp0, by simp [hpid]⟩
    obtain ⟨w, hwfind⟩ := Option.isSome_iff_exists.mp hsome
    have hwmem : w ∈ s.players := List.mem_of_find?_eq_some hwfind
    have hwid : w.id = a := by simpa using List.find?_some hwfind
    refine ⟨w, hwmem, hwid, ?_⟩
    rw [hw, hpw, hta]
    dsimp only
    rw [hwfind]

/-- Witness for the amended C5 at the concrete state `sF` (`timeLeft = 1`,
Alice the admin holds score 1, so the positive-score branch applies). -/
theorem c5_round_end_winner_witness :
    (∃ p ∈ sF.players, 0 < p.score) ∧
    (∃ l1 w l2, sF.players = l1 ++ w :: l2 ∧ (gameTick sF).winner = some w ∧
      (∀ q ∈ l1, q.score < w.score) ∧ (∀ q ∈ l2, q.score ≤ w.score)) :=
  ⟨by decide, (c5_round_end_winner sF reach_sF (by decide) (by decide)).1 (by decide)⟩
